import Mathlib

/-!
Verification of the g2p-portal-agent streaming chat service.

This file gives a shallow embedding, in Lean 4, of the parts of the
repository that the specification's testable properties talk about:

* `app/services/stream_events.py` — the event emitters and the static
  tool/subagent display tables;
* `app/services/chat.py` — `ChatService.stream_response`, the translator
  from the orchestrator's raw update stream to the normalized event
  sequence;
* `app/tools/analysis.py` — `run_python_analysis`, its substring-based
  security check, the tsv/csv hardening pipeline, and the result
  extraction priority;
* `app/tools/definitions.py` / `app/services/api_client.py` —
  `fetch_pdb_file` and `G2PClient.get`;
* `app/tools/feedback.py` — `record_user_preference`.

Modelling conventions.  Python dicts that are used as ordered key/value
tables become association lists with Python's update-or-append assignment
semantics (`dictInsert`).  Wire events are modelled structurally (an
inductive `Event`) rather than as the serialized SSE strings, because the
serialized form differs only by the per-event random `event_id` and
`timestamp` fields, which no claim mentions.  External effects (the LLM,
HTTP, pandas row parsing failures, `exec`) are passed in as explicit
oracle parameters.  A Python statement that raises is modelled by an
explicit error value threaded to the enclosing `try/except`.
-/

namespace G2P

/-- Python dict assignment `d[k] = v` on a string-keyed dict with unique
keys: update the existing entry in place, else append at the end. -/
def dictInsert {A : Type} (d : List (String × A)) (k : String) (v : A) :
    List (String × A) :=
  match d with
  | [] => [(k, v)]
  | (k0, v0) :: rest =>
    if k0 = k then (k, v) :: rest else (k0, v0) :: dictInsert rest k v

/-- Python substring test `pat in s`, on the underlying character lists. -/
def listContainsSub (l pat : List Char) : Bool :=
  match l with
  | [] => pat.isEmpty
  | _ :: t => pat.isPrefixOf l || listContainsSub t pat

/-- Python substring test `pat in s` for strings. -/
def strContains (s pat : String) : Bool :=
  listContainsSub s.data pat.data

/-- The whitespace class of Python `str.strip()` / `str.split()`
(ASCII part; the claims use no exotic Unicode whitespace). -/
def isPyWhitespace (c : Char) : Bool :=
  c = ' ' || c = '\t' || c = '\n' || c = '\r' || c = '\x0B' || c = '\x0C'

/-- Python `str.strip()` on the character list. -/
def pyStripList (l : List Char) : List Char :=
  ((l.dropWhile isPyWhitespace).reverse.dropWhile isPyWhitespace).reverse

/-- Python `str.strip()`. -/
def pyStrip (s : String) : String := ⟨pyStripList s.data⟩

/-- Splitting a character list at every character satisfying `p`
(Python `str.split(sep)` semantics: preserves empty fields). -/
def splitByList (p : Char → Bool) : List Char → List (List Char)
  | [] => [[]]
  | x :: rest =>
    let r := splitByList p rest
    if p x then [] :: r
    else
      match r with
      | [] => [[x]]
      | h :: t => (x :: h) :: t

/-- Python `s.split(c)` for a one-character separator. -/
def splitChar (s : String) (c : Char) : List String :=
  (splitByList (fun x => x == c) s.data).map fun l => ⟨l⟩

/-- Python `s.split()`: split on whitespace runs, dropping empty parts. -/
def pySplitWs (s : String) : List String :=
  ((splitByList isPyWhitespace s.data).filter fun l => l ≠ []).map fun l => ⟨l⟩

/-- Python `s[:n]` (slicing by code points). -/
def strTake (s : String) (n : ℕ) : String := ⟨s.data.take n⟩

/-!
## Embedding of `app/services/stream_events.py`

Events are modelled structurally.  Every emitter in the source also adds
a random `event_id` and a wall-clock `timestamp`; both are omitted here
(no claim refers to them, and the spec explicitly excludes them from the
idempotence comparison).  `emit_meta` is one Python function taking the
meta type as an argument; its three uses in `chat.py` (`title`, `end`,
`error`) and `emit_stream_start` (a `meta` frame with `type` start) are
modelled as separate constructors carrying the payload fields the call
sites supply.  The `details` dict of `emit_thinking` and the `raw_data`
dict of `emit_action` are display payloads that no claim inspects and
are omitted from the event model.
-/

/-- Normalized stream event (the wire unit of the translator). -/
inductive Event : Type
  | metaStart (stream_id : String)
  | thinking (ttype : String) (summary : String) (visibility : String)
  | action (atype : String) (title : String) (icon : String) (status : String)
      (action_id : Option String) (summary : Option String)
  | content (text : String) (is_final : Bool) (source : Option String)
      (visibility : String)
  | metaTitle (title : String) (summary : String)
  | metaEnd (stream_id : String)
  | metaError (error : String) (stream_id : String)
deriving DecidableEq, Repr

/-- Display record of the static `TOOL_INFO` table. -/
structure ToolInfo where
  icon : String
  title : String
  descr : String
deriving DecidableEq, Repr

/-- The static `TOOL_INFO` name → display info table. -/
def TOOL_INFO : List (String × ToolInfo) :=
  [("get_gene_dossier", ⟨"📊", "Fetching Gene Information", "Retrieves comprehensive gene data"⟩),
   ("get_protein_features", ⟨"🧬", "Analyzing Protein Features", "Analyzes domains and motifs"⟩),
   ("fetch_alphafold_access", ⟨"🔮", "Getting AlphaFold Structure", "Retrieves predicted structure"⟩),
   ("check_clinvar_status", ⟨"🩺", "Checking ClinVar", "Validates variant pathogenicity"⟩),
   ("align_isoforms", ⟨"🔀", "Aligning Isoforms", "Compares splice variants"⟩),
   ("map_variant_to_canonical", ⟨"🗺️", "Mapping Variant", "Maps to canonical sequence"⟩),
   ("fetch_pdb_file", ⟨"📥", "Downloading PDB Structure", "Fetches experimental structure"⟩),
   ("run_python_analysis", ⟨"🐍", "Running Custom Analysis", "Executes specialized code"⟩),
   ("task", ⟨"🔧", "Delegating to Specialist", "Assigning to domain expert"⟩)]

/-- Display record of the static `SUBAGENT_INFO` table. -/
structure SubagentInfo where
  icon : String
  title : String
deriving DecidableEq, Repr

/-- The static `SUBAGENT_INFO` subagent type → display info table. -/
def SUBAGENT_INFO : List (String × SubagentInfo) :=
  [("genetic-discovery-agent", ⟨"🧬", "Genetic Discovery Specialist"⟩),
   ("structural-biology-agent", ⟨"🔬", "Structural Biology Expert"⟩),
   ("variant-analyst-agent", ⟨"🩺", "Variant Analysis Specialist"⟩)]

/-- `get_tool_info`: table lookup with a raw-name fallback. -/
def get_tool_info (tool_name : String) : ToolInfo :=
  (TOOL_INFO.lookup tool_name).getD
    ⟨"🔧", tool_name, ("Executes ") ++ tool_name⟩

/-- `get_subagent_info`: table lookup with a raw-type fallback. -/
def get_subagent_info (subagent_type : String) : SubagentInfo :=
  (SUBAGENT_INFO.lookup subagent_type).getD ⟨"🤖", subagent_type⟩

/-- `format_args_summary`: special-case the known argument keys, drop the
bookkeeping keys, and join the parts with a bar separator. -/
def format_args_summary (args : List (String × String)) : String :=
  let parts := args.filterMap fun kv =>
    if kv.1 = "gene_symbol" ∨ kv.1 = "gene" then some (("Gene: ") ++ kv.2)
    else if kv.1 = "uniprot_id" ∨ kv.1 = "protein_id" then some (("Protein: ") ++ kv.2)
    else if kv.1 = "variant" then some (("Variant: ") ++ kv.2)
    else if kv.1 = "description" ∨ kv.1 = "task_description" ∨ kv.1 = "subagent_type" then none
    else some (kv.1 ++ (": ") ++ kv.2)
  String.intercalate (" | ") parts

/-!
## Embedding of `ChatService.stream_response` (`app/services/chat.py`)

The raw update stream arrives as chunks keyed by node name, each node
carrying a message list; `stream_response` iterates them in arrival
order, so the stream is modelled as the flattened, ordered list of raw
messages.  Message content is either plain text or a list of blocks
(duck-typed dicts in the source).

The source's `emit_action` has a required `display_icon` parameter with
no default.  All three `emit_action` call sites in `chat.py` pass only
`action_type`, `display_title`, `status`, `action_id`, `display_summary`,
`visibility` and `raw_data` — `display_icon` is never supplied, so every
one of those calls raises `TypeError` before a single `action` event can
be produced.  The model makes that explicit: the three call sites yield
`emitActionTypeError` into the error channel that the enclosing
`try/except` of `stream_response` turns into a terminal `meta` error
event.
-/

/-- One entry of a blocked (list-valued) message content: either a dict
with optional `type` and `text` fields, or a non-dict entry (discarded by
the flattening). -/
inductive Block : Type
  | dictB (btype : Option String) (btext : Option String)
  | nonDict
deriving DecidableEq, Repr

/-- Message content: plain text or a list of blocks. -/
inductive Content : Type
  | str (s : String)
  | blocks (bs : List Block)
deriving DecidableEq, Repr

/-- A tool call as read off a raw message: `tc.get("name")`,
`tc.get("id")` and `tc.get("args")` (argument values already rendered as
strings, as `format_args_summary` interpolates them). -/
structure ToolCall where
  name : Option String
  id : Option String
  args : List (String × String)
deriving DecidableEq, Repr

/-- One raw message of the orchestrator's update stream.  `tool_calls`
empty models a message without (or with a falsy) `tool_calls` attribute;
`mtype` is `getattr(msg, "type", "")`. -/
structure Msg where
  tool_calls : List ToolCall
  mtype : String
  content : Content
  tool_call_id : Option String
deriving DecidableEq, Repr

/-- One message of the request conversation. -/
structure ConvMsg where
  role : String
  content : String
deriving DecidableEq, Repr

/-- The `active_actions` entry: `\x7b"name": tool_name, "args": args\x7d`. -/
structure ActionInfo where
  name : String
  args : List (String × String)
deriving DecidableEq, Repr

/-- Mutable translator state: the `active_actions` dict and the
`collected_content` buffer. -/
structure St where
  active : List (String × ActionInfo)
  collected : String
deriving DecidableEq, Repr

/-- The message of the `TypeError` raised at each `emit_action` call site
in `chat.py` (the required `display_icon` argument is never passed; the
Python message quotes the parameter name, quoting omitted here). -/
def emitActionTypeError : String :=
  "emit_action() missing 1 required positional argument: display_icon"

/-- The message of the `TypeError` raised by `collected_content += content`
when a tool message carries list-valued content on the first exchange. -/
def strConcatTypeError : String :=
  "can only concatenate str (not list) to str"

/-- Flattening of list-valued content, translated from
`" ".join([block.get("text", "") for block in content if
isinstance(block, dict) and block.get("type") == "text"])`. -/
def flattenBlocks (bs : List Block) : String :=
  String.intercalate (" ")
    ((bs.filter fun b =>
        match b with
        | .dictB btype _ => btype = some ("text")
        | .nonDict => false).map fun b =>
      match b with
      | .dictB _ btext => btext.getD ("")
      | .nonDict => "")

/-- Content normalization of the AI-message branch: list-valued content
is flattened, plain text passes through. -/
def normalizeContent : Content → String
  | .str s => s
  | .blocks bs => flattenBlocks bs

/-- Processing of one tool call of a raw message (the body of the
`for tc in msg.tool_calls` loop).  Returns the events yielded so far, the
updated state, and the error the failing `emit_action` call raises. -/
def processToolCall (st : St) (tc : ToolCall) :
    List Event × St × Option String :=
  let tool_name := tc.name.getD ("unknown_tool")
  let action_id := tc.id.getD (("act_") ++ toString st.active.length)
  let args := tc.args
  let _tool_info := get_tool_info tool_name
  let st1 : St := { st with active := dictInsert st.active action_id ⟨tool_name, args⟩ }
  if tool_name = "task" then
    let subagent_type := (args.lookup ("subagent_type")).getD ("unknown")
    let subagent_info := get_subagent_info subagent_type
    -- The `emit_thinking` call succeeds and is yielded; the following
    -- `emit_action(action_type="delegation", ...)` call raises TypeError
    -- because `display_icon` is not passed.
    ([Event.thinking ("decision") (("Delegating to ") ++ subagent_info.title) ("advanced")],
     st1, some emitActionTypeError)
  else
    let _args_summary := format_args_summary args
    -- The `emit_action(action_type="tool", ...)` call raises TypeError
    -- because `display_icon` is not passed.
    ([], st1, some emitActionTypeError)

/-- The `for tc in msg.tool_calls` loop, stopping at the first raised
exception. -/
def processToolCalls (st : St) : List ToolCall → List Event × St × Option String
  | [] => ([], st, none)
  | tc :: rest =>
    match processToolCall st tc with
    | (evs, st1, none) =>
      match processToolCalls st1 rest with
      | (evs2, st2, e) => (evs ++ evs2, st2, e)
    | (evs, st1, some e) => (evs, st1, some e)

/-- The tool-result accumulation step
(`if content: if is_first_exchange: collected_content += content + "\n\n"`).
List-valued content raises TypeError on the string concatenation. -/
def toolAccumulate (firstEx : Bool) (st : St) (evs : List Event) (c : Content) :
    List Event × St × Option String :=
  match c with
  | .str s =>
    if s ≠ "" ∧ firstEx then
      (evs, { st with collected := st.collected ++ s ++ "\n\n" }, none)
    else (evs, st, none)
  | .blocks bs =>
    if bs ≠ [] ∧ firstEx then (evs, st, some strConcatTypeError)
    else (evs, st, none)

/-- Processing of one raw message of the update stream: the tool-call
block, then either the tool-result branch or the AI-message branch. -/
def processMsg (firstEx : Bool) (st : St) (m : Msg) :
    List Event × St × Option String :=
  match (if m.tool_calls ≠ [] then processToolCalls st m.tool_calls else ([], st, none)) with
  | (evs1, st1, some e) => (evs1, st1, some e)
  | (evs1, st1, none) =>
    if m.mtype = "tool" then
      match m.tool_call_id with
      | some tid =>
        if (st1.active.lookup tid).isSome then
          -- The completion `emit_action(..., status="success")` call also
          -- raises TypeError: `display_icon` is not passed.
          (evs1, st1, some emitActionTypeError)
        else toolAccumulate firstEx st1 evs1 m.content
      | none => toolAccumulate firstEx st1 evs1 m.content
    else
      let c := normalizeContent m.content
      if c ≠ "" ∧ firstEx then
        (evs1, { st1 with collected := st1.collected ++ c }, none)
      else (evs1, st1, none)

/-- The translator loop over the raw update stream, stopping at the first
raised exception. -/
def runUpdates (firstEx : Bool) : St → List Msg → List Event × St × Option String
  | st, [] => ([], st, none)
  | st, m :: rest =>
    match processMsg firstEx st m with
    | (evs, st1, none) =>
      match runUpdates firstEx st1 rest with
      | (evs2, st2, e) => (evs ++ evs2, st2, e)
    | (evs, st1, some e) => (evs, st1, some e)

/-- `_generate_thread_metadata`: the secondary model call is an external
effect, passed in as `modelResult` (`some` = the parsed title/summary pair
of a successful call, `none` = any failure inside the guarded block).  On
failure the deterministic fallback uses the first six whitespace-separated
words of the user query as title and its first 100 characters as summary. -/
def generate_thread_metadata (user_query : String)
    (modelResult : Option (String × String)) : String × String :=
  match modelResult with
  | some ts => ts
  | none =>
    (String.intercalate (" ") ((pySplitWs user_query).take 6),
     strTake user_query 100)

/-- Preference injection: prepend the locally-loaded preference text to
the first message when it is a user message. -/
def injectPrefs (user_prefs_text : String) (messages : List ConvMsg) :
    List ConvMsg :=
  match messages with
  | [] => []
  | m0 :: rest =>
    if user_prefs_text ≠ "" ∧ m0.role = "user" then
      { m0 with content := user_prefs_text ++ m0.content } :: rest
    else m0 :: rest

/-- `is_first_exchange`: exactly one user-role message in the (injected)
conversation. -/
def isFirstExchange (messages : List ConvMsg) : Bool :=
  (messages.filter fun m => m.role = "user").length = 1

/-- `ChatService.stream_response`.  Inputs beyond the conversation:
`stream_id` (random in the source), the raw update stream actually
delivered by `agent.astream` (`updates`), whether iterating the agent
stream itself raised after that prefix (`agentRaise`), and the outcome of
the secondary title-generation model call (`modelResult`).  The
preference file contents are summarized by `user_prefs_text` (empty when
the file is absent).  Output: the ordered list of emitted events. -/
def stream_response (stream_id user_prefs_text : String)
    (messages : List ConvMsg) (updates : List Msg)
    (agentRaise : Option String)
    (modelResult : Option (String × String)) : List Event :=
  let messages1 := injectPrefs user_prefs_text messages
  let firstEx := isFirstExchange messages1
  let user_first_message :=
    if firstEx then ((messages1.head?.map fun m => m.content).getD ("")) else ""
  match runUpdates firstEx ⟨[], ""⟩ updates with
  | (evs, stF, err) =>
    match err with
    | some e => Event.metaStart stream_id :: evs ++ [Event.metaError e stream_id]
    | none =>
      match agentRaise with
      | some e => Event.metaStart stream_id :: evs ++ [Event.metaError e stream_id]
      | none =>
        let contentEvs :=
          if stF.collected ≠ "" then
            [Event.content (pyStrip stF.collected) true (some ("agent")) ("minimal")]
          else []
        let titleEvs :=
          if firstEx ∧ stF.collected ≠ "" then
            [Event.metaTitle (generate_thread_metadata user_first_message modelResult).1
               (generate_thread_metadata user_first_message modelResult).2]
          else []
        Event.metaStart stream_id :: evs ++ contentEvs ++ titleEvs
          ++ [Event.metaEnd stream_id]

/-!
## Embedding of `run_python_analysis` (`app/tools/analysis.py`)

The tool's own control flow (security check first, then format dispatch
and data loading, then `exec` and result extraction, each guarded by
`try/except`) is translated directly.  The external pieces are modelled
as follows:

* the textual denylist check is pure Python string containment and is
  translated exactly (`secHit`, `securityCheckAux`);
* `pd.read_csv` plus the hardening steps on the resulting frame are
  modelled by `readCSV`/`harden` below on a column-typed table; whether
  `pd.read_csv` (or `json.loads`/`PDBParser`) raised is the `loadErr`
  oracle — when it is `none` for tsv/csv input, the parsed frame is
  `readCSV` of the payload;
* `exec` of the user code is the `ExecOutcome` oracle: the `str` of a
  `result` variable if the code defined one, the `str` of an `output`
  variable if defined, and the captured stdout.

The source's security-error and unsupported-format messages wrap the
module name and format in single quotes; the quotes are omitted from the
string literals here.
-/

/-- The `forbidden_imports` denylist. -/
def forbidden_imports : List String := ["os", "sys", "subprocess", "importlib", "shutil"]

/-- One denylist test: `f"import \x7bmod\x7d" in code or f"from \x7bmod\x7d" in code`. -/
def secHit (code mod : String) : Bool :=
  strContains code (("import ") ++ mod) || strContains code (("from ") ++ mod)

/-- The security-error message for a hit module. -/
def secMsg (mod : String) : String :=
  ("Security Error: Import of ") ++ mod ++ (" is restricted.")

/-- The `for mod in forbidden_imports` loop: first hit wins. -/
def securityCheckAux (code : String) : List String → Option String
  | [] => none
  | mod :: rest =>
    if secHit code mod then some (secMsg mod) else securityCheckAux code rest

/-- The complete security check of `run_python_analysis`. -/
def securityCheck (code : String) : Option String :=
  securityCheckAux code forbidden_imports

/-- A cell of the in-memory table: missing (`NaN`), numeric, or string.
Floats are modelled as rationals. -/
inductive PCell : Type
  | nan
  | num (q : ℚ)
  | str (s : String)
deriving DecidableEq, Repr

/-- Column dtype: numeric (int64/float64) or object. -/
inductive DType : Type
  | numeric
  | object
deriving DecidableEq, Repr

/-- One column of the table. -/
structure Col where
  name : String
  dtype : DType
  cells : List PCell
deriving DecidableEq, Repr

/-- The in-memory table, column-major. -/
abbrev DF := List Col

/-- Digit-list check. -/
def isDigits (l : List Char) : Bool := !l.isEmpty && l.all fun c => c.isDigit

/-- Numeric value of a digit list. -/
def natOfDigits (l : List Char) : ℕ :=
  l.foldl (fun acc c => acc * 10 + (c.toNat - 48)) 0

/-- Decimal number parsing as performed by `pd.to_numeric` /
`pd.read_csv` type inference, modelled for plain signed decimal literals
with optional fractional part (scientific notation, infinities and
thousands separators are out of scope of the claims). -/
def parseNum (s : String) : Option ℚ :=
  let signBody : ℚ × List Char :=
    match pyStripList s.data with
    | '-' :: r => (-1, r)
    | '+' :: r => (1, r)
    | r => (1, r)
  match splitByList (fun x => x == '.') signBody.2 with
  | [ip] => if isDigits ip then some (signBody.1 * (natOfDigits ip : ℚ)) else none
  | [ip, fp] =>
    if (ip ≠ [] ∨ fp ≠ []) ∧ (ip = [] ∨ isDigits ip = true) ∧
        (fp = [] ∨ isDigits fp = true) then
      some (signBody.1 *
        ((natOfDigits ip : ℚ) + (natOfDigits fp : ℚ) / (10 ^ fp.length : ℚ)))
    else none
  | _ => none

/-- Non-blank lines of the payload (`pd.read_csv` skips blank lines). -/
def splitLines (payload : String) : List String :=
  (splitChar payload ('\n')).filter fun l => l ≠ ""

/-- Column construction with `read_csv` dtype inference: a column whose
non-empty fields all parse numerically becomes numeric (empty fields
read as `NaN`); otherwise it is an object column of strings with `NaN`
for empty fields. -/
def inferCol (colName : String) (raw : List String) : Col :=
  if raw.all fun c => c == "" || (parseNum c).isSome then
    ⟨colName, .numeric,
     raw.map fun c => if c = "" then .nan else ((parseNum c).map PCell.num).getD .nan⟩
  else
    ⟨colName, .object, raw.map fun c => if c = "" then .nan else .str c⟩

/-- `pd.read_csv(io.StringIO(data_payload), sep=sep)`, modelled for plain
delimited text: first non-blank line is the header, short rows are padded
with missing fields. -/
def readCSV (payload : String) (sep : Char) : DF :=
  match splitLines payload with
  | [] => []
  | h :: rest =>
    let headers := splitChar h sep
    let rows := rest.map fun line => splitChar line sep
    (List.range headers.length).map fun j =>
      inferCol (headers.getD j ("")) (rows.map fun r => r.getD j (""))

/-- `pd.to_numeric(col, errors="coerce")` on one cell. -/
def coerceCell : PCell → PCell
  | .nan => .nan
  | .num q => .num q
  | .str s => ((parseNum s).map PCell.num).getD .nan

/-- Float rendering used by `astype(str)`; the exact Python float
formatting is abstracted (only stringness matters to the claims). -/
def floatRepr (q : ℚ) : String := toString q

/-- `col.astype(str)` on one cell; a missing value renders as the string
nan, exactly as pandas does. -/
def astypeStrCell : PCell → PCell
  | .nan => .str ("nan")
  | .num q => .str (floatRepr q)
  | .str s => .str s

/-- `fillna("")` on one cell of an object column. -/
def fillnaCell : PCell → PCell
  | .nan => .str ("")
  | c => c

/-- Column names of a frame. -/
def colNames (df : DF) : List String := df.map fun c => c.name

/-- Column lookup (`df[name]`, first matching column). -/
def getCol (df : DF) (n : String) : Option Col :=
  df.find? fun c => c.name == n

/-- The keep-mask of `df.drop_duplicates(subset=["residueId"], keep="first")`:
true exactly at the first occurrence of each key value (pandas treats two
`NaN` keys as duplicates of each other). -/
def keepFirstMask (seen : List PCell) : List PCell → List Bool
  | [] => []
  | c :: rest => (!(decide (c ∈ seen))) :: keepFirstMask (c :: seen) rest

/-- Row filtering of one column by a keep-mask. -/
def applyMask : List Bool → List PCell → List PCell
  | b :: bs, c :: cs => if b then c :: applyMask bs cs else applyMask bs cs
  | _, _ => []

/-- The typing/NaN hardening steps applied in source order: coerce a
`residueId` column to numeric, cast a `ClinVar` column to string, then
replace `NaN` by the empty string in every object-typed column. -/
def hardenTyping (df : DF) : DF :=
  let df1 :=
    if ("residueId") ∈ colNames df then
      df.map fun c =>
        if c.name == "residueId" then ⟨c.name, .numeric, c.cells.map coerceCell⟩ else c
    else df
  let df2 :=
    if ("ClinVar") ∈ colNames df1 then
      df1.map fun c =>
        if c.name == "ClinVar" then ⟨c.name, .object, c.cells.map astypeStrCell⟩ else c
    else df1
  df2.map fun c =>
    if c.dtype == DType.object then ⟨c.name, c.dtype, c.cells.map fillnaCell⟩ else c

/-- The full hardening pipeline of the tsv/csv branch: typing/NaN rules,
then `drop_duplicates(subset=["residueId"], keep="first")` when a
`residueId` column exists. -/
def harden (df : DF) : DF :=
  let df3 := hardenTyping df
  match getCol df3 ("residueId") with
  | some c =>
    let mask := keepFirstMask [] c.cells
    df3.map fun col => ⟨col.name, col.dtype, applyMask mask col.cells⟩
  | none => df3

/-- The frame bound to `df` in the execution namespace for tsv/csv input. -/
def loadTable (payload : String) (sep : Char) : DF := harden (readCSV payload sep)

/-- Separator chosen for the format: tab for tsv, comma otherwise. -/
def sepOf (data_format : String) : Char :=
  if data_format = "tsv" then '\t' else ','

/-- Outcome of `exec(code, exec_globals, local_vars)`: either an
exception, or normal completion described by the `str` of a `result`
variable if the code defined one, the `str` of an `output` variable if
defined, and the captured stdout. -/
inductive ExecOutcome : Type
  | ok (result : Option String) (output : Option String) (stdout : String)
  | err (msg : String)
deriving DecidableEq, Repr

/-- Observable outcome of one `run_python_analysis` call: the returned
string, whether the data-loading phase ran, whether `exec` ran, and the
frame bound to `df` (tsv/csv input only). -/
structure AnalysisResult where
  ret : String
  loaded : Bool
  execd : Bool
  boundDF : Option DF
deriving DecidableEq, Repr

/-- The fixed no-output sentinel (source wraps result in single quotes,
omitted here). -/
def noOutputSentinel : String :=
  "Analysis completed but no output produced (print results or assign to result variable)."

/-- The execute-and-extract phase of `run_python_analysis`. -/
def runExec (ex : ExecOutcome) (df : Option DF) : AnalysisResult :=
  match ex with
  | .err m => ⟨("Error executing analysis code: ") ++ m, true, true, df⟩
  | .ok r o out =>
    let final :=
      match r with
      | some rs => rs
      | none =>
        match o with
        | some os => os
        | none => if pyStrip out ≠ "" then out else noOutputSentinel
    ⟨final, true, true, df⟩

/-- `run_python_analysis`: security check, format dispatch and data
loading, execution, result extraction.  `loadErr` is the exception the
loading phase raised, if any. -/
def run_python_analysis (data_payload data_format code _descr : String)
    (loadErr : Option String) (ex : ExecOutcome) : AnalysisResult :=
  match securityCheck code with
  | some msg => ⟨msg, false, false, none⟩
  | none =>
    if data_format = "tsv" ∨ data_format = "csv" then
      match loadErr with
      | some e => ⟨("Error loading data: ") ++ e, true, false, none⟩
      | none => runExec ex (some (loadTable data_payload (sepOf data_format)))
    else if data_format = "json" then
      match loadErr with
      | some e => ⟨("Error loading data: ") ++ e, true, false, none⟩
      | none => runExec ex none
    else if data_format = "pdb" then
      match loadErr with
      | some e => ⟨("Error loading data: ") ++ e, true, false, none⟩
      | none => runExec ex none
    else ⟨("Error: Unsupported data format ") ++ data_format, false, false, none⟩

/-!
## Embedding of `fetch_pdb_file` and `G2PClient.get`

The HTTP exchange is an oracle: either a response with a status code and
body text, or a transport-level failure.  `httpx.Response.raise_for_status`
raises `HTTPStatusError` for every non-2xx status.  `fetch_pdb_file`
performs the download with no `try/except` around it, so both failure
modes escape the tool as exceptions (`Except.error`); the langchain tool
decorator does not catch them.  `G2PClient.get` wraps the same exchange
in `try/except` and converts both failure modes to strings. -/

/-- Outcome of one HTTP request. -/
inductive HttpResult : Type
  | resp (status : ℕ) (text : String)
  | netFail (msg : String)
deriving DecidableEq, Repr

/-- `httpx` success check used by `raise_for_status`. -/
def is2xx (status : ℕ) : Bool := 200 ≤ status && status < 300

/-- `fetch_pdb_file` (`app/tools/definitions.py`): download the RCSB file
and `raise_for_status()` — unguarded, so failures propagate as raised
exceptions (the exact `httpx` message text is abstracted). -/
def fetch_pdb_file (pdb_id : String) (download : HttpResult) :
    Except String String :=
  let url := ("https://files.rcsb.org/download/") ++ pdb_id ++ (".pdb")
  match download with
  | .resp status text =>
    if is2xx status then .ok text
    else .error (("HTTPStatusError ") ++ toString status ++ (" for url ") ++ url)
  | .netFail m => .error m

/-- `G2PClient.get` (`app/services/api_client.py`): the same exchange
guarded by `try/except`, converting an HTTP status error and any other
failure into descriptive strings (JSON/text smart parsing of the success
body is identity here). -/
def G2PClient_get (result : HttpResult) : String :=
  match result with
  | .resp status text =>
    if is2xx status then text
    else ("Error: API returned ") ++ toString status
  | .netFail m => ("Error: Request failed - ") ++ m

/-!
## Embedding of `record_user_preference` (`app/tools/feedback.py`)

The preferences file holds one JSON object mapping category to
`\x7btext, timestamp\x7d`.  The tool loads it, assigns
`current_prefs[category] = \x7b"text": preference, "timestamp": now\x7d`
and writes the whole object back.  The claim concerns the stored state,
so the model maps the loaded dict to the written dict; the returned
confirmation text is display-only and not modelled. -/

/-- One stored preference entry. -/
structure PrefEntry where
  text : String
  timestamp : String
deriving DecidableEq, Repr

/-- The state transformation of `record_user_preference` on the loaded
preferences dict (valid-JSON case). -/
def record_user_preference (category preference timestamp : String)
    (current_prefs : List (String × PrefEntry)) : List (String × PrefEntry) :=
  dictInsert current_prefs category ⟨preference, timestamp⟩

/-!
## Spec-side definitions

These follow the wording of the specification claims and are compared
with the source-translated definitions above by the refinement theorems.
-/

/-- Spec wording of the list-content flattening: the texts of the
text-typed entries, in order, joined by single spaces, non-text blocks
discarded. -/
def specFlatten (bs : List Block) : String :=
  String.intercalate (" ")
    (bs.filterMap fun b =>
      match b with
      | .dictB btype btext => if btype = some ("text") then some (btext.getD ("")) else none
      | .nonDict => none)

/-- Amended-claim wording of one message contribution to the content
buffer: a text-bearing tool result contributes its text followed by a
blank-line separator, a text-bearing model message its normalized text,
both only on the first exchange.  Messages carrying tool calls abort the
stream before any content event, so their contribution is irrelevant and
defined as empty. -/
def specContribution (firstEx : Bool) (m : Msg) : String :=
  if m.tool_calls ≠ [] then ""
  else if m.mtype = "tool" then
    match m.content with
    | .str s => if s ≠ "" ∧ firstEx then s ++ "\n\n" else ""
    | .blocks _ => ""
  else
    let c := normalizeContent m.content
    if c ≠ "" ∧ firstEx then c else ""

/-- Amended-claim wording of the whole content buffer: concatenation of
the per-message contributions in arrival order. -/
def specBuffer (firstEx : Bool) : List Msg → String
  | [] => ""
  | m :: rest => specContribution firstEx m ++ specBuffer firstEx rest

/-- Spec wording of the result-extraction priority: the `result`
variable if defined, else the `output` variable if defined, else the
captured stdout if non-blank, else the fixed sentinel. -/
def specPriority (result output : Option String) (stdout : String) : String :=
  match result with
  | some rs => rs
  | none =>
    match output with
    | some os => os
    | none => if pyStrip stdout ≠ "" then stdout else noOutputSentinel

/-- Spec wording of keep-first deduplication: keep each value's first
occurrence, drop later ones. -/
def dedupSeen (seen : List PCell) : List PCell → List PCell
  | [] => []
  | c :: rest =>
    if c ∈ seen then dedupSeen (c :: seen) rest
    else c :: dedupSeen (c :: seen) rest

/-- Keep-first deduplication of a cell list. -/
def dedupKeepFirst (l : List PCell) : List PCell := dedupSeen [] l

/-- Cell-shape predicate: numeric or missing. -/
def isNumOrNan : PCell → Bool
  | .nan => true
  | .num _ => true
  | .str _ => false

/-- Cell-shape predicate: string. -/
def isStr : PCell → Bool
  | .str _ => true
  | _ => false

/-- Terminal-event predicate of the spec (`meta` end or `meta` error). -/
def isTerminal : Event → Bool
  | .metaEnd _ => true
  | .metaError _ _ => true
  | _ => false

/-- Content-event predicate. -/
def isContentEv : Event → Bool
  | .content _ _ _ _ => true
  | _ => false

/-- Thinking-event predicate. -/
def isThinkingEv : Event → Bool
  | .thinking _ _ _ => true
  | _ => false

/-!
## Concrete inputs of the scenario claims
-/

/-- Scenario message 1: the delegation tool call to the discovery
specialist. -/
def msgDelegation : Msg :=
  ⟨[⟨some ("task"), some ("call_1"),
     [("subagent_type", "genetic-discovery-agent"),
      ("description", "Investigate the LDLR gene")]⟩],
   "ai", .str (""), none⟩

/-- Scenario message 2: the gene-dossier tool call. -/
def msgDossierCall : Msg :=
  ⟨[⟨some ("get_gene_dossier"), some ("call_2"), [("gene_name", "LDLR")]⟩],
   "ai", .str (""), none⟩

/-- Scenario message 3: the correlating tool result. -/
def msgDossierResult : Msg :=
  ⟨[], "tool", .str ("\x7b\"symbol\":\"LDLR\",\"uniprot\":\"P01130\"\x7d"),
   some ("call_2")⟩

/-- Scenario message 4: the final assistant text message. -/
def msgFinal : Msg :=
  ⟨[], "ai", .str ("LDLR encodes a cholesterol receptor."), none⟩

/-- Scenario conversation: one user message. -/
def ldlrMessages : List ConvMsg := [⟨"user", "What is LDLR?"⟩]

/-- Scenario raw update stream. -/
def ldlrUpdates : List Msg :=
  [msgDelegation, msgDossierCall, msgDossierResult, msgFinal]

end G2P

namespace G2P

/-!
## Helper lemmas
-/

theorem getLast?_append_singleton {α : Type} (l : List α) (b : α) :
    (l ++ [b]).getLast? = some b := by
  rw [List.getLast?_append_of_ne_nil _ (by simp)]
  rfl

theorem toolAccumulate_events (firstEx : Bool) (st : St) (evs : List Event)
    (c : Content) : (toolAccumulate firstEx st evs c).1 = evs := by
  unfold toolAccumulate
  rcases c with s | bs <;> dsimp only <;> split <;> rfl

theorem processToolCall_err (st : St) (tc : ToolCall) :
    (processToolCall st tc).2.2 = some emitActionTypeError := by
  simp only [processToolCall]
  split <;> rfl

theorem processToolCall_events_thinking (st : St) (tc : ToolCall) :
    ∀ e ∈ (processToolCall st tc).1, isThinkingEv e = true := by
  simp only [processToolCall]
  split <;> simp [isThinkingEv]

theorem processToolCalls_raises (st : St) (tc : ToolCall) (rest : List ToolCall) :
    ∃ evs st1, processToolCalls st (tc :: rest) = (evs, st1, some emitActionTypeError) ∧
      ∀ e ∈ evs, isThinkingEv e = true := by
  rcases hp : processToolCall st tc with ⟨evs, st1, err⟩
  have herr := processToolCall_err st tc
  have hth := processToolCall_events_thinking st tc
  rw [hp] at herr hth
  simp only at herr
  subst herr
  exact ⟨evs, st1, by simp only [processToolCalls, hp], hth⟩

theorem processMsg_no_toolcalls_events (firstEx : Bool) (st : St) (m : Msg)
    (hm : m.tool_calls = []) : (processMsg firstEx st m).1 = [] := by
  unfold processMsg
  rw [hm]
  simp only [ne_eq, not_true_eq_false, if_false]
  split
  · rcases m.tool_call_id with _ | tid
    · simp only [toolAccumulate_events]
    · dsimp only
      split
      · rfl
      · simp only [toolAccumulate_events]
  · split <;> rfl

theorem processMsg_events_thinking (firstEx : Bool) (st : St) (m : Msg) :
    ∀ e ∈ (processMsg firstEx st m).1, isThinkingEv e = true := by
  by_cases hm : m.tool_calls = []
  · rw [processMsg_no_toolcalls_events firstEx st m hm]
    intro e he
    simp at he
  · obtain ⟨tc, rest, hcons⟩ : ∃ tc rest, m.tool_calls = tc :: rest := by
      cases h : m.tool_calls with
      | nil => exact absurd h hm
      | cons a b => exact ⟨a, b, rfl⟩
    obtain ⟨evs, st1, heq, hth⟩ := processToolCalls_raises st tc rest
    unfold processMsg
    rw [hcons]
    simp only [ne_eq, reduceCtorEq, not_false_eq_true, if_true, heq]
    exact hth

theorem runUpdates_events_thinking (firstEx : Bool) (st : St) (ms : List Msg) :
    ∀ e ∈ (runUpdates firstEx st ms).1, isThinkingEv e = true := by
  induction ms generalizing st with
  | nil => intro e he; simp [runUpdates] at he
  | cons m rest ih =>
    intro e he
    rcases hp : processMsg firstEx st m with ⟨evs, st1, err⟩
    cases err with
    | none =>
      rcases hr : runUpdates firstEx st1 rest with ⟨evs2, st2, e2⟩
      simp only [runUpdates, hp, hr] at he
      rcases List.mem_append.1 he with h1 | h2
      · have hth := processMsg_events_thinking firstEx st m
        rw [hp] at hth
        exact hth e h1
      · have hth := ih st1
        rw [hr] at hth
        exact hth e h2
    | some e1 =>
      simp only [runUpdates, hp] at he
      have hth := processMsg_events_thinking firstEx st m
      rw [hp] at hth
      exact hth e he

/-!
## Claim theorems
-/

/-- C1.  Evaluation of `stream_response` at the scenario input: the
delegation tool call makes the translator emit `meta` start and
`thinking` decision, and then the `emit_action` call site raises
`TypeError` (its required `display_icon` argument is never passed), so
the stream terminates with a `meta` error event — not the specified
`action`/`content`/`title`/`end` sequence. -/
theorem c1_scenario_trace :
    stream_response ("str_0") ("") ldlrMessages ldlrUpdates none
        (some (("LDLR Gene Analysis"), ("Discussion about the LDLR gene."))) =
      [Event.metaStart ("str_0"),
       Event.thinking ("decision") ("Delegating to Genetic Discovery Specialist") ("advanced"),
       Event.metaError emitActionTypeError ("str_0")] := by
  rfl

/-- C2.  Evaluation of `fetch_pdb_file` at failing downloads: a non-2xx
response makes `raise_for_status()` raise `HTTPStatusError` and a
transport failure raises as well; both escape the unguarded tool as
exceptions instead of being returned as an error string.  `G2PClient.get`
in the same repository catches the identical failure and returns the
descriptive string, showing the intended contract. -/
theorem thinking_not_terminal (e : Event) (h : isThinkingEv e = true) :
    isTerminal e = false := by
  cases e <;> simp_all [isThinkingEv, isTerminal]

theorem thinking_not_content (e : Event) (h : isThinkingEv e = true) :
    isContentEv e = false := by
  cases e <;> simp_all [isThinkingEv, isContentEv]

theorem countP_terminal_thinking (l : List Event)
    (h : ∀ e ∈ l, isThinkingEv e = true) : l.countP isTerminal = 0 := by
  rw [List.countP_eq_zero]
  intro e he
  simp [thinking_not_terminal e (h e he)]

theorem terminal_tail_shape (sid : String) (mid : List Event) (e : Event)
    (h1 : mid.countP isTerminal = 0) (he : isTerminal e = true) :
    (Event.metaStart sid :: (mid ++ [e])).countP isTerminal = 1 ∧
    ∃ x, (Event.metaStart sid :: (mid ++ [e])).getLast? = some x ∧
      isTerminal x = true := by
  constructor
  · have hs : isTerminal (Event.metaStart sid) = false := rfl
    simp [List.countP_cons, List.countP_append, h1, he, hs]
  · refine ⟨e, ?_, he⟩
    rw [← List.singleton_append, List.getLast?_append_of_ne_nil _ (by simp)]
    exact getLast?_append_singleton _ _

/-- C3.  Every streaming session ends with exactly one terminal `meta`
event: the emitted event sequence contains exactly one `meta` end or
`meta` error event, and that event is the last one.  This covers the
normal path, a translator-side exception (including the `TypeError` every
`emit_action` call raises), and an agent-stream exception. -/
theorem c3_exactly_one_terminal_event (stream_id user_prefs_text : String)
    (messages : List ConvMsg) (updates : List Msg)
    (agentRaise : Option String) (modelResult : Option (String × String)) :
    (stream_response stream_id user_prefs_text messages updates agentRaise
        modelResult).countP isTerminal = 1 ∧
    ∃ x, (stream_response stream_id user_prefs_text messages updates agentRaise
        modelResult).getLast? = some x ∧ isTerminal x = true := by
  rcases hr : runUpdates (isFirstExchange (injectPrefs user_prefs_text messages))
      ⟨[], ""⟩ updates with ⟨evs1, stF, err⟩
  have hth := runUpdates_events_thinking
    (isFirstExchange (injectPrefs user_prefs_text messages)) ⟨[], ""⟩ updates
  rw [hr] at hth
  have h1 : evs1.countP isTerminal = 0 := countP_terminal_thinking evs1 hth
  simp only [stream_response, hr]
  cases err with
  | some e => exact terminal_tail_shape stream_id evs1 (Event.metaError e stream_id) h1 rfl
  | none =>
    cases agentRaise with
    | some e => exact terminal_tail_shape stream_id evs1 (Event.metaError e stream_id) h1 rfl
    | none =>
      have h2 : (if stF.collected ≠ "" then
          [Event.content (pyStrip stF.collected) true (some ("agent")) ("minimal")]
          else []).countP isTerminal = 0 := by
        split <;> rfl
      have h3 : ∀ t : List Event, t.countP isTerminal = 0 →
          (evs1 ++ (if stF.collected ≠ "" then
            [Event.content (pyStrip stF.collected) true (some ("agent")) ("minimal")]
            else []) ++ t).countP isTerminal = 0 := by
        intro t ht
        rw [List.countP_append, List.countP_append, h1, h2, ht]
      refine terminal_tail_shape stream_id _ (Event.metaEnd stream_id) (h3 _ ?_) rfl
      split <;> rfl

theorem c2_fetch_pdb_file_raises :
    fetch_pdb_file ("1ABC") (.resp 404 ("Not Found")) =
      Except.error ("HTTPStatusError 404 for url https://files.rcsb.org/download/1ABC.pdb") ∧
    fetch_pdb_file ("1ABC") (.netFail ("Connection timed out")) =
      Except.error ("Connection timed out") ∧
    G2PClient_get (.resp 404 ("Not Found")) = ("Error: API returned 404") := by
  exact ⟨rfl, rfl, rfl⟩

theorem securityCheck_of_hit (code : String)
    (h : forbidden_imports.any (secHit code) = true) :
    ∃ m rest, securityCheck code = some m ∧ m = ("Security Error") ++ rest := by
  have hpre : ∀ mods, mods.any (secHit code) = true →
      ∃ m rest, securityCheckAux code mods = some m ∧
        m = ("Security Error") ++ rest := by
    intro mods
    induction mods with
    | nil => intro hx; simp at hx
    | cons mod rest ih =>
      intro hx
      by_cases hm : secHit code mod = true
      · refine ⟨secMsg mod, (": Import of ") ++ mod ++ (" is restricted."),
          by simp [securityCheckAux, hm], ?_⟩
        unfold secMsg
        rw [show ("Security Error: Import of ") = ("Security Error") ++ (": Import of ") from rfl,
          String.append_assoc ("Security Error") (": Import of ") mod,
          String.append_assoc ("Security Error") ((": Import of ") ++ mod) (" is restricted.")]
      · rw [Bool.not_eq_true] at hm
        simp only [List.any_cons, hm, Bool.false_or] at hx
        obtain ⟨m, r, hsome, hp⟩ := ih hx
        exact ⟨m, r, by simp [securityCheckAux, hm, hsome], hp⟩
  exact hpre forbidden_imports h

/-- C5.  When the code argument textually contains an import of a
denylisted module (such as `import os`), `run_python_analysis` returns a
string beginning with Security Error, the data-loading phase never runs
(no frame is bound), and `exec` never runs; the check is pure string
matching, so no exception can be raised (the model is a total function). -/
theorem c5_security_rejection (data_payload data_format code descr : String)
    (loadErr : Option String) (ex : ExecOutcome)
    (h : forbidden_imports.any (secHit code) = true) :
    (∃ rest, (run_python_analysis data_payload data_format code descr loadErr ex).ret =
        ("Security Error") ++ rest) ∧
    (run_python_analysis data_payload data_format code descr loadErr ex).loaded = false ∧
    (run_python_analysis data_payload data_format code descr loadErr ex).execd = false ∧
    (run_python_analysis data_payload data_format code descr loadErr ex).boundDF = none := by
  obtain ⟨m, r, hsome, hp⟩ := securityCheck_of_hit code h
  refine ⟨⟨r, ?_⟩, ?_, ?_, ?_⟩ <;> simp [run_python_analysis, hsome, hp]

/-- C5 witness: code containing `import os` is rejected without loading
or executing. -/
theorem c5_security_rejection_witness :
    (∃ rest, (run_python_analysis ("a\tb\n1\t2") ("tsv")
        ("import os\nresult = os.getcwd()") ("list files") none
        (.ok none none (""))).ret = ("Security Error") ++ rest) ∧
    (run_python_analysis ("a\tb\n1\t2") ("tsv") ("import os\nresult = os.getcwd()")
        ("list files") none (.ok none none (""))).loaded = false ∧
    (run_python_analysis ("a\tb\n1\t2") ("tsv") ("import os\nresult = os.getcwd()")
        ("list files") none (.ok none none (""))).execd = false ∧
    (run_python_analysis ("a\tb\n1\t2") ("tsv") ("import os\nresult = os.getcwd()")
        ("list files") none (.ok none none (""))).boundDF = none :=
  c5_security_rejection ("a\tb\n1\t2") ("tsv") ("import os\nresult = os.getcwd()")
    ("list files") none (.ok none none ("")) (by decide)

/-- C7.  When the security check passes, the format is supported, and
loading and execution both complete without exception, the returned
string follows the priority: the result variable if defined, else the
output variable if defined, else the captured stdout if non-blank, else
the fixed no-output sentinel. -/
theorem c7_result_priority (data_payload data_format code descr : String)
    (result output : Option String) (stdout : String)
    (hsec : securityCheck code = none)
    (hfmt : data_format = "tsv" ∨ data_format = "csv" ∨ data_format = "json" ∨
      data_format = "pdb") :
    (run_python_analysis data_payload data_format code descr none
        (.ok result output stdout)).ret = specPriority result output stdout ∧
    (run_python_analysis data_payload data_format code descr none
        (.ok result output stdout)).execd = true := by
  rcases hfmt with h | h | h | h <;>
    subst h <;>
    simp [run_python_analysis, hsec, runExec, specPriority]

/-- C7 witness: with no result or output variable and blank stdout, the
sentinel is returned by the executed tool. -/
theorem c7_result_priority_witness :
    (run_python_analysis ("\x7b\"k\": 1\x7d") ("json") ("x = 1") ("noop") none
        (.ok none none ("  "))).ret = specPriority none none ("  ") ∧
    (run_python_analysis ("\x7b\"k\": 1\x7d") ("json") ("x = 1") ("noop") none
        (.ok none none ("  "))).execd = true :=
  c7_result_priority ("\x7b\"k\": 1\x7d") ("json") ("x = 1") ("noop") none none ("  ")
    (by decide) (Or.inr (Or.inr (Or.inl rfl)))

theorem lookup_dictInsert_self {A : Type} (d : List (String × A)) (k : String)
    (v : A) : (dictInsert d k v).lookup k = some v := by
  induction d with
  | nil => simp [dictInsert, List.lookup]
  | cons p rest ih =>
    rcases p with ⟨k0, v0⟩
    by_cases h : k0 = k
    · simp [dictInsert, h, List.lookup]
    · have hk : (k == k0) = false := by
        rw [beq_eq_false_iff_ne]
        exact fun hx => h hx.symm
      simp [dictInsert, h, List.lookup, hk, ih]

theorem lookup_dictInsert_ne {A : Type} (d : List (String × A)) (k c : String)
    (v : A) (h : c ≠ k) : (dictInsert d k v).lookup c = d.lookup c := by
  have hck : (c == k) = false := beq_eq_false_iff_ne.mpr h
  induction d with
  | nil => simp [dictInsert, List.lookup, hck]
  | cons p rest ih =>
    rcases p with ⟨k0, v0⟩
    by_cases h0 : k0 = k
    · subst h0
      simp [dictInsert, List.lookup, hck]
    · cases hc0 : (c == k0) <;> simp [dictInsert, h0, List.lookup, hc0, ih]

/-- C9.  `record_user_preference` with category, preference text and a
fresh timestamp updates or creates exactly the entry of that category in
the stored preferences object: the updated entry holds the new text and
timestamp, every other category's entry is unchanged, and no entry is
deleted. -/
theorem c9_preference_frame (prefs : List (String × PrefEntry))
    (category preference timestamp : String) :
    (record_user_preference category preference timestamp prefs).lookup category =
      some ⟨preference, timestamp⟩ ∧
    (∀ c, c ≠ category →
      (record_user_preference category preference timestamp prefs).lookup c =
        prefs.lookup c) ∧
    (∀ c e, prefs.lookup c = some e →
      ∃ e2, (record_user_preference category preference timestamp prefs).lookup c =
        some e2) := by
  refine ⟨lookup_dictInsert_self prefs category ⟨preference, timestamp⟩, ?_, ?_⟩
  · intro c hc
    exact lookup_dictInsert_ne prefs category c ⟨preference, timestamp⟩ hc
  · intro c e he
    by_cases hc : c = category
    · subst hc
      exact ⟨⟨preference, timestamp⟩, lookup_dictInsert_self prefs c ⟨preference, timestamp⟩⟩
    · refine ⟨e, ?_⟩
      simp only [record_user_preference]
      rw [lookup_dictInsert_ne prefs category c ⟨preference, timestamp⟩ hc]
      exact he

/-- C9 witness: updating the custom category leaves the response-style
entry untouched. -/
theorem c9_preference_frame_witness :
    (record_user_preference ("custom") ("cite PDB ids") ("2026-10-12T00:00:00")
        [("response_style", ⟨"brief", "2026-01-01T00:00:00"⟩)]).lookup ("response_style") =
      some ⟨"brief", "2026-01-01T00:00:00"⟩ :=
  (c9_preference_frame [("response_style", ⟨"brief", "2026-01-01T00:00:00"⟩)]
    ("custom") ("cite PDB ids") ("2026-10-12T00:00:00")).2.1 ("response_style") (by decide)

/-- C8.  List-valued model-message content is normalized to exactly the
texts of its text-typed entries, in order, joined by single spaces, with
all non-text blocks discarded (even when the result is empty): the
source-translated flattening agrees with the spec-side `specFlatten`, and
the translator treats a blocked model message exactly like a plain
message carrying the flattened text. -/
theorem c8_block_flattening (bs : List Block) (firstEx : Bool) (st : St)
    (ty : String) (tid : Option String) (h : ty ≠ "tool") :
    normalizeContent (.blocks bs) = specFlatten bs ∧
    processMsg firstEx st ⟨[], ty, .blocks bs, tid⟩ =
      processMsg firstEx st ⟨[], ty, .str (specFlatten bs), tid⟩ := by
  have hlist : ∀ l : List Block,
      ((l.filter fun b => match b with
        | .dictB btype _ => btype = some ("text")
        | .nonDict => false).map fun b => match b with
        | .dictB _ btext => btext.getD ("")
        | .nonDict => "") =
      (l.filterMap fun b => match b with
        | .dictB btype btext =>
          if btype = some ("text") then some (btext.getD ("")) else none
        | .nonDict => none) := by
    intro l
    induction l with
    | nil => rfl
    | cons b rest ih =>
      cases b with
      | dictB bty btx =>
        by_cases hb : bty = some ("text") <;>
          simp [List.filter_cons, List.filterMap_cons, hb, ih]
      | nonDict => simp [List.filter_cons, List.filterMap_cons, ih]
  have h1 : normalizeContent (.blocks bs) = specFlatten bs := by
    simp only [normalizeContent, flattenBlocks, specFlatten, hlist]
  refine ⟨h1, ?_⟩
  simp only [processMsg, ne_eq, not_true_eq_false, if_false, reduceCtorEq, h1,
    show normalizeContent (Content.str (specFlatten bs)) = specFlatten bs from rfl]
  rw [if_neg h, if_neg h]

/-- C8 witness: a mixed block list flattens to the text entries joined by
single spaces, with the non-text and non-dict entries dropped. -/
theorem c8_block_flattening_witness :
    normalizeContent (.blocks
      [.dictB (some ("text")) (some ("Hello")), .nonDict,
       .dictB (some ("image")) (some ("ignored")),
       .dictB (some ("text")) (some ("world"))]) =
      specFlatten
      [.dictB (some ("text")) (some ("Hello")), .nonDict,
       .dictB (some ("image")) (some ("ignored")),
       .dictB (some ("text")) (some ("world"))] :=
  (c8_block_flattening
    [.dictB (some ("text")) (some ("Hello")), .nonDict,
     .dictB (some ("image")) (some ("ignored")),
     .dictB (some ("text")) (some ("world"))]
    true ⟨[], ""⟩ ("ai") none (by decide)).1

theorem processMsg_orphan (firstEx : Bool) (st : St) (tid s : String)
    (h1 : st.active.lookup tid = none) :
    processMsg firstEx st ⟨[], "tool", .str s, some tid⟩ =
      ([], ⟨st.active,
        if s ≠ "" ∧ firstEx then st.collected ++ s ++ "\n\n" else st.collected⟩,
       none) := by
  simp only [processMsg, ne_eq, not_true_eq_false, if_false, toolAccumulate, h1,
    Option.isSome_none, Bool.false_eq_true, reduceIte]
  split
  · rfl
  · rfl

/-- C6.  A tool-result message whose id is absent from the active-action
table emits no events at all (in particular no action events), but its
text is still accumulated into the content buffer on the first exchange;
consequently it can surface in the final content event, as the concrete
single-message session shows. -/
theorem c6_orphan_tool_result (firstEx : Bool) (st : St) (tid s : String)
    (h1 : st.active.lookup tid = none) (h2 : s ≠ "") :
    processMsg firstEx st ⟨[], "tool", .str s, some tid⟩ =
      ([], ⟨st.active,
        if firstEx then st.collected ++ s ++ "\n\n" else st.collected⟩, none) ∧
    Event.content (pyStrip (s ++ "\n\n")) true (some ("agent")) ("minimal") ∈
      stream_response ("str_0") ("") [⟨"user", "q"⟩]
        [⟨[], "tool", .str s, some tid⟩] none none := by
  constructor
  · rw [processMsg_orphan firstEx st tid s h1]
    cases firstEx <;> simp [h2]
  · have hne : (s ++ ("\n\n")) ≠ "" := by
      intro hx
      have hlen := congrArg String.length hx
      rw [String.length_append] at hlen
      rw [show ("\n\n" : String).length = 2 from rfl] at hlen
      rw [show ("" : String).length = 0 from rfl] at hlen
      omega
    have hrun : runUpdates (isFirstExchange (injectPrefs ("") [⟨"user", "q"⟩]))
        ⟨[], ""⟩ [⟨[], "tool", .str s, some tid⟩] =
        ([], ⟨[], s ++ "\n\n"⟩, none) := by
      rw [show isFirstExchange (injectPrefs ("") [⟨"user", "q"⟩]) = true from rfl]
      rw [runUpdates, processMsg_orphan true ⟨[], ""⟩ tid s rfl]
      simp [h2, runUpdates]
    simp only [stream_response, hrun]
    simp [hne]

/-- C6 witness: the orphan tool result DATA is accumulated and appears in
the final content event of the concrete session. -/
theorem c6_orphan_tool_result_witness :
    Event.content (pyStrip (("DATA") ++ ("\n\n"))) true (some ("agent")) ("minimal") ∈
      stream_response ("str_0") ("") [⟨"user", "q"⟩]
        [⟨[], "tool", .str ("DATA"), some ("orphan")⟩] none none :=
  (c6_orphan_tool_result true ⟨[], ""⟩ ("orphan") ("DATA") rfl (by decide)).2


theorem str_append_empty (s : String) : s ++ ("") = s := by
  apply String.ext
  simp [String.data_append]

theorem processMsg_collected (firstEx : Bool) (st : St) (m : Msg)
    (evs : List Event) (st1 : St)
    (h : processMsg firstEx st m = (evs, st1, none)) :
    st1.collected = st.collected ++ specContribution firstEx m := by
  by_cases hm : m.tool_calls = []
  · rw [processMsg, hm] at h
    simp only [ne_eq, not_true_eq_false, if_false] at h
    unfold specContribution
    rw [hm]
    simp only [ne_eq, not_true_eq_false, if_false]
    by_cases hty : m.mtype = "tool"
    · simp only [hty, if_true, reduceIte] at h ⊢
      rcases hc : m.content with s | bs <;> rw [hc] at h <;> dsimp only <;>
        rcases htid : m.tool_call_id with _ | tid <;> rw [htid] at h <;>
        dsimp only at h
      · simp only [toolAccumulate] at h
        split at h
        next hcond =>
          simp only [Prod.mk.injEq] at h
          rw [← h.2.1]
          rw [if_pos hcond]
          show st.collected ++ s ++ ("\n\n") = st.collected ++ (s ++ ("\n\n"))
          exact String.append_assoc st.collected s ("\n\n")
        next hcond =>
          simp only [Prod.mk.injEq] at h
          rw [← h.2.1]
          rw [if_neg hcond, str_append_empty]
      · split at h
        · simp [Prod.mk.injEq] at h
        · simp only [toolAccumulate] at h
          split at h
          next hcond =>
            simp only [Prod.mk.injEq] at h
            rw [← h.2.1]
            rw [if_pos hcond]
            show st.collected ++ s ++ ("\n\n") = st.collected ++ (s ++ ("\n\n"))
            exact String.append_assoc st.collected s ("\n\n")
          next hcond =>
            simp only [Prod.mk.injEq] at h
            rw [← h.2.1]
            rw [if_neg hcond, str_append_empty]
      · simp only [toolAccumulate] at h
        split at h
        · simp [Prod.mk.injEq] at h
        · simp only [Prod.mk.injEq] at h
          rw [← h.2.1, str_append_empty]
      · split at h
        · simp [Prod.mk.injEq] at h
        · simp only [toolAccumulate] at h
          split at h
          · simp [Prod.mk.injEq] at h
          · simp only [Prod.mk.injEq] at h
            rw [← h.2.1, str_append_empty]
    · simp only [hty, if_false, reduceIte] at h ⊢
      split at h
      next hcond =>
        simp only [Prod.mk.injEq] at h
        rw [← h.2.1]
        rw [if_pos hcond]
      next hcond =>
        simp only [Prod.mk.injEq] at h
        rw [← h.2.1]
        rw [if_neg hcond, str_append_empty]
  · exfalso
    obtain ⟨tc, rest, hcons⟩ : ∃ tc rest, m.tool_calls = tc :: rest := by
      cases hx : m.tool_calls with
      | nil => exact absurd hx hm
      | cons a b => exact ⟨a, b, rfl⟩
    obtain ⟨evs2, st2, heq, _⟩ := processToolCalls_raises st tc rest
    rw [processMsg, hcons] at h
    simp only [ne_eq, reduceCtorEq, not_false_eq_true, if_true, heq] at h
    simp [Prod.mk.injEq] at h

theorem runUpdates_collected (firstEx : Bool) (st : St) (ms : List Msg)
    (evs : List Event) (st1 : St)
    (h : runUpdates firstEx st ms = (evs, st1, none)) :
    st1.collected = st.collected ++ specBuffer firstEx ms := by
  induction ms generalizing st evs with
  | nil =>
    rw [runUpdates] at h
    injection h with h1 h2
    injection h2 with h2 h3
    rw [← h2, specBuffer, str_append_empty]
  | cons m rest ih =>
    rcases hp : processMsg firstEx st m with ⟨evsA, stA, errA⟩
    cases errA with
    | some e =>
      rw [runUpdates, hp] at h
      dsimp only at h
      simp only [Prod.mk.injEq] at h
      exact absurd h.2.2 (by simp)
    | none =>
      rcases hrec : runUpdates firstEx stA rest with ⟨evsB, stB, errB⟩
      rw [runUpdates, hp] at h
      dsimp only at h
      rw [hrec] at h
      dsimp only at h
      simp only [Prod.mk.injEq] at h
      obtain ⟨h1, h2, h3⟩ := h
      subst h3
      subst h2
      rw [ih stA evsB hrec, processMsg_collected firstEx st m evsA stA hp,
        specBuffer, String.append_assoc]

theorem countP_content_shape (sid : String) (evs1 C T : List Event)
    (hz : evs1.countP isContentEv = 0) (hC : C.countP isContentEv ≤ 1)
    (hT : T.countP isContentEv = 0) :
    (Event.metaStart sid :: evs1 ++ C ++ T ++ [Event.metaEnd sid]).countP
      isContentEv ≤ 1 := by
  simp only [List.countP_cons, List.countP_append, hz, hT]
  rw [show isContentEv (Event.metaStart sid) = false from rfl,
    show isContentEv (Event.metaEnd sid) = false from rfl]
  simp only [List.countP_nil, Bool.false_eq_true, if_false]
  omega

/-- C4 counterexample: in the session with a first user turn, an orphan
tool result with text A and a model message with text B, the content
event carries the text A, blank line, B — not the trimmed plain
concatenation AB of the two accumulated texts that the claim describes. -/
theorem c4_counterexample :
    Event.content ("A\n\nB") true (some ("agent")) ("minimal") ∈
      stream_response ("str_0") ("") [⟨"user", "q"⟩]
        [⟨[], "tool", .str ("A"), some ("orphan")⟩,
         ⟨[], "ai", .str ("B"), none⟩] none none ∧
    ("A\n\nB") ≠ pyStrip (("A") ++ ("B")) := by
  constructor
  · decide
  · decide

/-- C4 (amended).  Every session emits at most one content event; a
content event always carries `is_final` true, and its text is the
whitespace-stripped concatenation, in arrival order, of the accumulated
text-bearing messages, where each tool-result contribution is suffixed by
a blank-line separator (`specBuffer`). -/
theorem c4_single_final_content (stream_id user_prefs_text : String)
    (messages : List ConvMsg) (updates : List Msg)
    (agentRaise : Option String) (modelResult : Option (String × String)) :
    (stream_response stream_id user_prefs_text messages updates agentRaise
        modelResult).countP isContentEv ≤ 1 ∧
    (∀ t fin src vis,
      Event.content t fin src vis ∈ stream_response stream_id user_prefs_text
        messages updates agentRaise modelResult →
      fin = true ∧
      t = pyStrip (specBuffer (isFirstExchange (injectPrefs user_prefs_text messages))
            updates)) := by
  rcases hr : runUpdates (isFirstExchange (injectPrefs user_prefs_text messages))
      ⟨[], ""⟩ updates with ⟨evs1, stF, err⟩
  have hth := runUpdates_events_thinking
    (isFirstExchange (injectPrefs user_prefs_text messages)) ⟨[], ""⟩ updates
  rw [hr] at hth
  have hz : evs1.countP isContentEv = 0 := by
    rw [List.countP_eq_zero]
    intro e he
    simp [thinking_not_content e (hth e he)]
  have hnc : ∀ t fin src vis, Event.content t fin src vis ∉ evs1 := by
    intro t fin src vis hmem
    have := hth _ hmem
    simp [isThinkingEv] at this
  simp only [stream_response, hr]
  cases err with
  | some e =>
    constructor
    · simp [List.countP_cons, List.countP_append, hz, isContentEv]
    · intro t fin src vis hmem
      rcases List.mem_cons.1 hmem with h1 | h1
    
      · exact absurd h1 (by simp)
      · rcases List.mem_append.1 h1 with h2 | h2
        · exact absurd h2 (hnc t fin src vis)
        · simp at h2
  | none =>
    cases agentRaise with
    | some e =>
      constructor
      · simp [List.countP_cons, List.countP_append, hz, isContentEv]
      · intro t fin src vis hmem
        rcases List.mem_cons.1 hmem with h1 | h1
        · exact absurd h1 (by simp)
        · rcases List.mem_append.1 h1 with h2 | h2
          · exact absurd h2 (hnc t fin src vis)
          · simp at h2
    | none =>
      have hcol : stF.collected =
          specBuffer (isFirstExchange (injectPrefs user_prefs_text messages)) updates := by
        have hx := runUpdates_collected
          (isFirstExchange (injectPrefs user_prefs_text messages)) ⟨[], ""⟩ updates
          evs1 stF hr
        simpa using hx
      constructor
      · apply countP_content_shape stream_id evs1 _ _ hz
        · split
          · exact Nat.le_of_eq rfl
          · exact Nat.zero_le _
        · split <;> rfl
      · intro t fin src vis hmem
        rcases List.mem_cons.1 hmem with h1 | h1
        · exact absurd h1 (by simp)
        · rcases List.mem_append.1 h1 with h2 | h2
          · rcases List.mem_append.1 h2 with h3 | h3
            · rcases List.mem_append.1 h3 with h4 | h4
              · exact absurd h4 (hnc t fin src vis)
              · by_cases hcase : stF.collected = ""
                · rw [if_neg (by simp_all)] at h4
                  simp at h4
                · rw [if_pos (by simp_all)] at h4
                  rcases List.mem_singleton.1 h4 with h5
                  injection h5 with e1 e2 e3 e4
                  subst e1
                  subst e2
                  rw [hcol]
                  exact ⟨rfl, rfl⟩
            · split at h3
              · rcases List.mem_singleton.1 h3 with h5
                exact absurd h5 (by simp)
              · simp at h3
          · rcases List.mem_singleton.1 h2 with h5
            exact absurd h5 (by simp)

/-- C4 witness: in the orphan-plus-model-message session the single
content event carries is-final true and the separator-joined stripped
buffer. -/
theorem c4_single_final_content_witness :
    (true : Bool) = true ∧
    ("A\n\nB") = pyStrip (specBuffer
      (isFirstExchange (injectPrefs ("") [⟨"user", "q"⟩]))
      [⟨[], "tool", .str ("A"), some ("orphan")⟩, ⟨[], "ai", .str ("B"), none⟩]) :=
  (c4_single_final_content ("str_0") ("") [⟨"user", "q"⟩]
    [⟨[], "tool", .str ("A"), some ("orphan")⟩, ⟨[], "ai", .str ("B"), none⟩]
    none none).2 ("A\n\nB") true (some ("agent")) ("minimal") (by decide)


theorem applyMask_keepFirst (l : List PCell) : ∀ seen : List PCell,
    applyMask (keepFirstMask seen l) l = dedupSeen seen l := by
  induction l with
  | nil => intro seen; rfl
  | cons c rest ih =>
    intro seen
    by_cases hm : c ∈ seen
    · simp [keepFirstMask, applyMask, dedupSeen, hm, ih]
    · simp [keepFirstMask, applyMask, dedupSeen, hm, ih]

theorem dedupSeen_sublist (l : List PCell) : ∀ seen : List PCell,
    List.Sublist (dedupSeen seen l) l := by
  induction l with
  | nil => intro seen; exact List.Sublist.refl []
  | cons c rest ih =>
    intro seen
    by_cases hm : c ∈ seen
    · rw [dedupSeen, if_pos hm]
      exact List.Sublist.cons c (ih (c :: seen))
    · rw [dedupSeen, if_neg hm]
      exact List.Sublist.cons₂ c (ih (c :: seen))

theorem dedupSeen_nodup (l : List PCell) : ∀ seen : List PCell,
    (dedupSeen seen l).Nodup ∧ ∀ x ∈ dedupSeen seen l, x ∉ seen := by
  induction l with
  | nil => intro seen; exact ⟨List.nodup_nil, by simp [dedupSeen]⟩
  | cons c rest ih =>
    intro seen
    by_cases hm : c ∈ seen
    · rw [dedupSeen, if_pos hm]
      refine ⟨(ih (c :: seen)).1, ?_⟩
      intro x hx hxs
      exact (ih (c :: seen)).2 x hx (List.mem_cons_of_mem c hxs)
    · rw [dedupSeen, if_neg hm]
      constructor
      · rw [List.nodup_cons]
        refine ⟨?_, (ih (c :: seen)).1⟩
        intro hc
        exact (ih (c :: seen)).2 c hc (List.mem_cons_self c seen)
      · intro x hx hxs
        rcases List.mem_cons.1 hx with h | h
        · exact hm (h ▸ hxs)
        · exact (ih (c :: seen)).2 x h (List.mem_cons_of_mem c hxs)

theorem applyMask_sublist (l : List PCell) : ∀ mask : List Bool,
    List.Sublist (applyMask mask l) l := by
  induction l with
  | nil =>
    intro mask
    cases mask <;> exact List.Sublist.refl []
  | cons c rest ih =>
    intro mask
    cases mask with
    | nil => exact List.nil_sublist (c :: rest)
    | cons b bs =>
      rw [applyMask]
      by_cases hb : b = true
      · rw [if_pos hb]
        exact List.Sublist.cons₂ c (ih bs)
      · rw [if_neg hb]
        exact List.Sublist.cons c (ih bs)

theorem coerceCell_numOrNan (c : PCell) : isNumOrNan (coerceCell c) = true := by
  cases c with
  | nan => rfl
  | num q => rfl
  | str s => cases hp : parseNum s <;> simp [coerceCell, isNumOrNan, hp]

theorem astypeStrCell_isStr (c : PCell) : isStr (astypeStrCell c) = true := by
  cases c <;> rfl

theorem fillnaCell_ne_nan (c : PCell) : fillnaCell c ≠ PCell.nan := by
  cases c <;> simp [fillnaCell]

theorem fillnaCell_isStr (c : PCell) (h : isStr c = true) :
    isStr (fillnaCell c) = true := by
  cases c <;> simp_all [fillnaCell, isStr]

theorem getCol_map (df : DF) (n : String) (f : Col → Col)
    (hf : ∀ c, (f c).name = c.name) :
    getCol (df.map f) n = (getCol df n).map f := by
  induction df with
  | nil => rfl
  | cons c rest ih =>
    simp only [List.map_cons, getCol, List.find?]
    rw [show ((f c).name == n) = (c.name == n) by rw [hf c]]
    cases hx : (c.name == n) with
    | true => rfl
    | false => exact ih

theorem getCol_mem_colNames (df : DF) (n : String) (c0 : Col)
    (h : getCol df n = some c0) : n ∈ colNames df := by
  induction df with
  | nil => simp [getCol] at h
  | cons c rest ih =>
    rw [getCol, List.find?] at h
    cases hx : (c.name == n) with
    | true =>
      have : c.name = n := by simpa using hx
      simp [colNames, this]
    | false =>
      rw [hx] at h
      have := ih h
      simp only [colNames, List.map_cons, List.mem_cons]
      right
      simpa [colNames] using this

theorem getCol_name (df : DF) (n : String) (c0 : Col)
    (h : getCol df n = some c0) : c0.name = n := by
  have := List.find?_some h
  simpa using this

theorem colNames_map (df : DF) (f : Col → Col)
    (hf : ∀ c, (f c).name = c.name) : colNames (df.map f) = colNames df := by
  simp [colNames, Function.comp, hf]

theorem hardenTyping_residue (df : DF) (c0 : Col)
    (h0 : getCol df ("residueId") = some c0) :
    getCol (hardenTyping df) ("residueId") =
      some ⟨c0.name, DType.numeric, c0.cells.map coerceCell⟩ := by
  have hname : c0.name = "residueId" := getCol_name df ("residueId") c0 h0
  have hmem : ("residueId") ∈ colNames df := getCol_mem_colNames df ("residueId") c0 h0
  have hf1 : ∀ c : Col, ((fun c : Col =>
      if c.name == "residueId" then
        Col.mk c.name DType.numeric (c.cells.map coerceCell) else c) c).name = c.name := by
    intro c
    dsimp only
    split <;> rfl
  have hf2 : ∀ c : Col, ((fun c : Col =>
      if c.name == "ClinVar" then
        Col.mk c.name DType.object (c.cells.map astypeStrCell) else c) c).name = c.name := by
    intro c
    dsimp only
    split <;> rfl
  have hf3 : ∀ c : Col, ((fun c : Col =>
      if c.dtype == DType.object then
        Col.mk c.name c.dtype (c.cells.map fillnaCell) else c) c).name = c.name := by
    intro c
    dsimp only
    split <;> rfl
  rw [hardenTyping]
  simp only [hmem, if_true, reduceIte]
  by_cases hcl : ("ClinVar") ∈ colNames (df.map fun c =>
      if c.name == "residueId" then
        Col.mk c.name DType.numeric (c.cells.map coerceCell) else c)
  · rw [if_pos hcl]
    rw [getCol_map _ _ _ hf3, getCol_map _ _ _ hf2, getCol_map _ _ _ hf1, h0]
    simp only [Option.map_some']
    rw [show (c0.name == ("residueId" : String)) = true by simp [hname]]
    simp only [if_true, reduceIte]
    rw [show ((Col.mk c0.name DType.numeric (c0.cells.map coerceCell)).name ==
      ("ClinVar" : String)) = false by simp [hname]]
    simp only [Bool.false_eq_true, if_false, reduceIte]
    rfl
  · rw [if_neg hcl]
    rw [getCol_map _ _ _ hf3, getCol_map _ _ _ hf1, h0]
    simp only [Option.map_some']
    rw [show (c0.name == ("residueId" : String)) = true by simp [hname]]
    simp only [if_true, reduceIte]
    rfl


theorem harden_residue (df : DF) (c0 : Col)
    (h0 : getCol df ("residueId") = some c0) :
    getCol (harden df) ("residueId") =
      some ⟨c0.name, DType.numeric, dedupKeepFirst (c0.cells.map coerceCell)⟩ := by
  have ht := hardenTyping_residue df c0 h0
  simp only [harden]
  rw [ht]
  dsimp only
  rw [getCol_map (hardenTyping df) ("residueId")
    (fun col => Col.mk col.name col.dtype
      (applyMask (keepFirstMask [] (c0.cells.map coerceCell)) col.cells))
    (fun c => rfl), ht]
  simp only [Option.map_some']
  rw [show applyMask
      (keepFirstMask [] (c0.cells.map coerceCell)) (c0.cells.map coerceCell) =
      dedupSeen [] (c0.cells.map coerceCell) from applyMask_keepFirst _ []]
  rfl

theorem hardenTyping_clinvar (df : DF) (cc : Col)
    (hcc : getCol df ("ClinVar") = some cc) :
    getCol (hardenTyping df) ("ClinVar") =
      some ⟨cc.name, DType.object, (cc.cells.map astypeStrCell).map fillnaCell⟩ := by
  have hname : cc.name = "ClinVar" := getCol_name df ("ClinVar") cc hcc
  have hf1 : ∀ c : Col, ((fun c : Col =>
      if c.name == "residueId" then
        Col.mk c.name DType.numeric (c.cells.map coerceCell) else c) c).name = c.name := by
    intro c
    dsimp only
    split <;> rfl
  have hf2 : ∀ c : Col, ((fun c : Col =>
      if c.name == "ClinVar" then
        Col.mk c.name DType.object (c.cells.map astypeStrCell) else c) c).name = c.name := by
    intro c
    dsimp only
    split <;> rfl
  have hf3 : ∀ c : Col, ((fun c : Col =>
      if c.dtype == DType.object then
        Col.mk c.name c.dtype (c.cells.map fillnaCell) else c) c).name = c.name := by
    intro c
    dsimp only
    split <;> rfl
  simp only [hardenTyping]
  by_cases hres : ("residueId") ∈ colNames df
  · simp only [hres, if_true, reduceIte]
    have h1 : getCol (df.map fun c =>
        if c.name == "residueId" then
          Col.mk c.name DType.numeric (c.cells.map coerceCell) else c) ("ClinVar") =
        some cc := by
      rw [getCol_map _ _ _ hf1, hcc]
      simp only [Option.map_some']
      rw [show (cc.name == ("residueId" : String)) = false by simp [hname]]
      simp only [Bool.false_eq_true, if_false, reduceIte]
    have hclmem := getCol_mem_colNames _ ("ClinVar") cc h1
    rw [if_pos hclmem]
    rw [getCol_map _ _ _ hf3, getCol_map _ _ _ hf2, h1]
    simp only [Option.map_some']
    rw [show (cc.name == ("ClinVar" : String)) = true by simp [hname]]
    simp only [if_true, reduceIte]
    rw [show ((Col.mk cc.name DType.object (cc.cells.map astypeStrCell)).dtype ==
      DType.object) = true by rfl]
    simp only [if_true, reduceIte]
  · simp only [hres, Bool.false_eq_true, if_false, reduceIte]
    have hclmem := getCol_mem_colNames df ("ClinVar") cc hcc
    rw [if_pos hclmem]
    rw [getCol_map _ _ _ hf3, getCol_map _ _ _ hf2, hcc]
    simp only [Option.map_some']
    rw [show (cc.name == ("ClinVar" : String)) = true by simp [hname]]
    simp only [if_true, reduceIte]
    rw [show ((Col.mk cc.name DType.object (cc.cells.map astypeStrCell)).dtype ==
      DType.object) = true by rfl]
    simp only [if_true, reduceIte]

theorem hardenTyping_object_nonan (df : DF) :
    ∀ col ∈ hardenTyping df, col.dtype = DType.object →
      PCell.nan ∉ col.cells := by
  intro col hcol hdt
  simp only [hardenTyping] at hcol
  rw [List.mem_map] at hcol
  obtain ⟨c2, hc2, hfc⟩ := hcol
  by_cases hob : (c2.dtype == DType.object) = true
  · rw [← hfc]
    rw [if_pos hob]
    show PCell.nan ∉ c2.cells.map fillnaCell
    intro hmem
    rw [List.mem_map] at hmem
    obtain ⟨y, hy, hfy⟩ := hmem
    exact fillnaCell_ne_nan y hfy
  · exfalso
    rw [← hfc] at hdt
    rw [if_neg hob] at hdt
    exact hob (by simp [hdt])

theorem harden_clinvar (df : DF) (cc : Col)
    (hcc : getCol df ("ClinVar") = some cc) :
    ∃ ccf, getCol (harden df) ("ClinVar") = some ccf ∧
      ∀ x ∈ ccf.cells, isStr x = true := by
  have ht := hardenTyping_clinvar df cc hcc
  have hstr : ∀ x ∈ (cc.cells.map astypeStrCell).map fillnaCell, isStr x = true := by
    intro x hx
    rw [List.mem_map] at hx
    obtain ⟨y, hy, hfy⟩ := hx
    rw [List.mem_map] at hy
    obtain ⟨z, hz, hfz⟩ := hy
    rw [← hfy, ← hfz]
    exact fillnaCell_isStr _ (astypeStrCell_isStr z)
  simp only [harden]
  cases hres : getCol (hardenTyping df) ("residueId") with
  | none => exact ⟨_, ht, hstr⟩
  | some c =>
    dsimp only
    refine ⟨⟨cc.name, DType.object,
      applyMask (keepFirstMask [] c.cells)
        ((cc.cells.map astypeStrCell).map fillnaCell)⟩, ?_, ?_⟩
    · rw [getCol_map (hardenTyping df) ("ClinVar")
        (fun col => Col.mk col.name col.dtype
          (applyMask (keepFirstMask [] c.cells) col.cells))
        (fun c => rfl), ht]
      simp only [Option.map_some']
    · intro x hx
      exact hstr x (List.Sublist.subset (applyMask_sublist _ _) hx)

theorem harden_object_nonan (df : DF) :
    ∀ col ∈ harden df, col.dtype = DType.object → PCell.nan ∉ col.cells := by
  intro col hcol hdt
  simp only [harden] at hcol
  cases hres : getCol (hardenTyping df) ("residueId") with
  | none =>
    rw [hres] at hcol
    dsimp only at hcol
    exact hardenTyping_object_nonan df col hcol hdt
  | some c =>
    rw [hres] at hcol
    dsimp only at hcol
    rw [List.mem_map] at hcol
    obtain ⟨c2, hc2, hfc⟩ := hcol
    rw [← hfc] at hdt ⊢
    dsimp only at hdt ⊢
    intro hmem
    exact hardenTyping_object_nonan df c2 hc2 hdt
      (List.Sublist.subset (applyMask_sublist _ _) hmem)

/-- C10.  For tsv/csv input whose parsed table has a `residueId` column,
`run_python_analysis` binds into the execution namespace the hardened
frame in which: the `residueId` column is numerically coerced
(non-numeric values becoming `NaN`) and then deduplicated keeping only
the first occurrence of each value (hence `Nodup`, and every cell numeric
or `NaN`); a `ClinVar` column, if present, holds only string cells; and
no object-typed column retains a `NaN` cell (they were replaced by the
empty string). -/
theorem c10_dataframe_hardening (data_payload data_format code descr : String)
    (ex : ExecOutcome) (c0 : Col)
    (hfmt : data_format = "tsv" ∨ data_format = "csv")
    (hsec : securityCheck code = none)
    (h0 : getCol (readCSV data_payload (sepOf data_format)) ("residueId") = some c0) :
    (run_python_analysis data_payload data_format code descr none ex).boundDF =
      some (loadTable data_payload (sepOf data_format)) ∧
    (∃ cfin, getCol (loadTable data_payload (sepOf data_format)) ("residueId") =
        some cfin ∧
      cfin.cells = dedupKeepFirst (c0.cells.map coerceCell) ∧
      cfin.cells.Nodup ∧
      ∀ x ∈ cfin.cells, isNumOrNan x = true) ∧
    (∀ cc, getCol (readCSV data_payload (sepOf data_format)) ("ClinVar") = some cc →
      ∃ ccf, getCol (loadTable data_payload (sepOf data_format)) ("ClinVar") =
          some ccf ∧
        ∀ x ∈ ccf.cells, isStr x = true) ∧
    (∀ col ∈ loadTable data_payload (sepOf data_format),
      col.dtype = DType.object → PCell.nan ∉ col.cells) := by
  refine ⟨?_, ?_, ?_, ?_⟩
  · rcases hfmt with h | h <;> subst h <;>
      cases ex <;> simp [run_python_analysis, hsec, runExec]
  · refine ⟨⟨c0.name, DType.numeric, dedupKeepFirst (c0.cells.map coerceCell)⟩,
      harden_residue _ c0 h0, rfl, ?_, ?_⟩
    · exact (dedupSeen_nodup (c0.cells.map coerceCell) []).1
    · intro x hx
      have hx2 : x ∈ c0.cells.map coerceCell :=
        List.Sublist.subset (dedupSeen_sublist (c0.cells.map coerceCell) []) hx
      rw [List.mem_map] at hx2
      obtain ⟨y, hy, hfy⟩ := hx2
      rw [← hfy]
      exact coerceCell_numOrNan y
  · intro cc hcc
    exact harden_clinvar _ cc hcc
  · exact harden_object_nonan _

/-- C10 witness: a concrete tsv payload with a duplicated and a
non-numeric `residueId` value, a partially missing `ClinVar` column and a
text column with a missing value. -/
theorem c10_dataframe_hardening_witness :
    (run_python_analysis
        ("residueId\tClinVar\tnote\n1\tP\thello\n1.0\tB\tworld\nxx\t\t\n2\t\tok")
        ("tsv") ("result = 1") ("hardening check") none
        (.ok (some ("1")) none (""))).boundDF =
      some (loadTable
        ("residueId\tClinVar\tnote\n1\tP\thello\n1.0\tB\tworld\nxx\t\t\n2\t\tok")
        (sepOf ("tsv"))) ∧
    (∃ cfin, getCol (loadTable
        ("residueId\tClinVar\tnote\n1\tP\thello\n1.0\tB\tworld\nxx\t\t\n2\t\tok")
        (sepOf ("tsv"))) ("residueId") = some cfin ∧
      cfin.cells = dedupKeepFirst
        ((Col.mk ("residueId") DType.object
          [PCell.str ("1"), PCell.str ("1.0"), PCell.str ("xx"),
           PCell.str ("2")]).cells.map coerceCell) ∧
      cfin.cells.Nodup ∧
      ∀ x ∈ cfin.cells, isNumOrNan x = true) ∧
    (∀ cc, getCol (readCSV
        ("residueId\tClinVar\tnote\n1\tP\thello\n1.0\tB\tworld\nxx\t\t\n2\t\tok")
        (sepOf ("tsv"))) ("ClinVar") = some cc →
      ∃ ccf, getCol (loadTable
          ("residueId\tClinVar\tnote\n1\tP\thello\n1.0\tB\tworld\nxx\t\t\n2\t\tok")
          (sepOf ("tsv"))) ("ClinVar") = some ccf ∧
        ∀ x ∈ ccf.cells, isStr x = true) ∧
    (∀ col ∈ loadTable
        ("residueId\tClinVar\tnote\n1\tP\thello\n1.0\tB\tworld\nxx\t\t\n2\t\tok")
        (sepOf ("tsv")),
      col.dtype = DType.object → PCell.nan ∉ col.cells) :=
  c10_dataframe_hardening
    ("residueId\tClinVar\tnote\n1\tP\thello\n1.0\tB\tworld\nxx\t\t\n2\t\tok")
    ("tsv") ("result = 1") ("hardening check") (.ok (some ("1")) none (""))
    (Col.mk ("residueId") DType.object
      [PCell.str ("1"), PCell.str ("1.0"), PCell.str ("xx"), PCell.str ("2")])
    (Or.inl rfl) (by decide) (by decide)


end G2P
